import Mathlib

/-!
Shallow embedding of the Yet-another-2D-Engine scene-graph core
(PlayerNode.cpp, Map.cpp, MainEngine.cpp, CollisionShapeFactory.h),
with theorems checking the natural-language specification against it.

Floating-point scalars of the C++ source are modelled as exact rationals;
the spec's stated tolerances absorb the rounding this ignores.
-/

namespace Y2D

/-- 2D vector of scalar coordinates, modelling `glm::vec2`. -/
structure Vec2 where
  x : ℚ
  y : ℚ
deriving DecidableEq, Repr

/-- Movement-tuning fields of `PlayerNode` (`playerSpeed`, `fallGravityFactor`,
`buttonPressJumpGravityFactor`), set in the constructor before
`SetJumpParameters` runs (PlayerNode.cpp lines 14-17). -/
structure PlayerParams where
  playerSpeed : ℚ
  fallGravityFactor : ℚ
  buttonPressJumpGravityFactor : ℚ
deriving DecidableEq, Repr

/-- The constants `PlayerNode::SetJumpParameters` derives (the local
`jumpTime` and the member fields `startJumpVelocity`, `gravityAcceleration`). -/
structure JumpParameters where
  jumpTime : ℚ
  startJumpVelocity : ℚ
  gravityAcceleration : ℚ
deriving DecidableEq, Repr

/-- `PlayerNode::SetJumpParameters(targetHeight, targetDistance)`
(PlayerNode.cpp lines 96-101), transcribed statement by statement:
`jumpTime = (d/4)/speed; jumpTime += (d/4)/speed * fallGravityFactor;
startJumpVelocity = 2*h/jumpTime;
gravityAcceleration = (-startJumpVelocity/jumpTime)/buttonPressJumpGravityFactor`. -/
def SetJumpParameters (p : PlayerParams) (targetHeight targetDistance : ℚ) :
    JumpParameters :=
  let jumpTime0 := targetDistance / 4 / p.playerSpeed
  let jumpTime := jumpTime0 + targetDistance / 4 / p.playerSpeed * p.fallGravityFactor
  let startJumpVelocity := 2 * targetHeight / jumpTime
  let gravityAcceleration := -startJumpVelocity / jumpTime / p.buttonPressJumpGravityFactor
  ⟨jumpTime, startJumpVelocity, gravityAcceleration⟩

/-- C1: `SetJumpParameters(targetHeight, targetDistance)` derives exactly
`jumpTime = (targetDistance/4)/playerSpeed * (1 + fallGravityFactor)`,
`startJumpVelocity = 2*targetHeight/jumpTime`, and
`gravityAcceleration = -(startJumpVelocity/jumpTime)/buttonPressJumpGravityFactor`;
for `targetHeight=2, targetDistance=1/2, playerSpeed=7, fallGravityFactor=4/5,
buttonPressJumpGravityFactor=1/2` the derived constants are within 1e-5 of
the closed-form values `9/280`, `1120/9`, `-627200/81`. -/
theorem setJumpParameters_closed_form (p : PlayerParams) (th td : ℚ) :
    (SetJumpParameters p th td).jumpTime
        = td / 4 / p.playerSpeed * (1 + p.fallGravityFactor) ∧
    (SetJumpParameters p th td).startJumpVelocity
        = 2 * th / (SetJumpParameters p th td).jumpTime ∧
    (SetJumpParameters p th td).gravityAcceleration
        = -((SetJumpParameters p th td).startJumpVelocity
              / (SetJumpParameters p th td).jumpTime)
            / p.buttonPressJumpGravityFactor ∧
    |(SetJumpParameters ⟨7, 4/5, 1/2⟩ 2 (1/2)).jumpTime - 9/280| < 1/100000 ∧
    |(SetJumpParameters ⟨7, 4/5, 1/2⟩ 2 (1/2)).startJumpVelocity - 1120/9| < 1/100000 ∧
    |(SetJumpParameters ⟨7, 4/5, 1/2⟩ 2 (1/2)).gravityAcceleration - (-627200/81)|
        < 1/100000 := by
  refine ⟨?_, ?_, ?_, ?_, ?_, ?_⟩
  · simp only [SetJumpParameters]; ring
  · simp only [SetJumpParameters]
  · simp only [SetJumpParameters]; ring
  · norm_num [SetJumpParameters]
  · norm_num [SetJumpParameters]
  · norm_num [SetJumpParameters]

/-- A child node as observed by `PlayerNode::Update`: whether the
`dynamic_cast<RigidbodyNode*>` succeeds on it, and (when it is a rigidbody)
the identifiers of the nodes in its `overlappedNodesThisFrame` set. -/
structure ChildNode where
  isRigidbody : Bool
  overlappedNodesThisFrame : List ℕ
deriving DecidableEq, Repr

/-- Modelled from the spec: `Node::GetChild` lives in Node.cpp, which is not
under src/. Per the spec it is a search "returning first child ... satisfying
a capability predicate"; it "returns null if none found". The player's
jump-trigger is a direct child, so the direct-children search suffices here. -/
def GetChild (children : List ChildNode) (pred : ChildNode → Bool) : Option ChildNode :=
  children.find? pred

/-- The predicate PlayerNode.cpp lines 53-55 passes to `GetChild`:
`dynamic_cast<RigidbodyNode*>(node) != nullptr`. -/
def isRigidbodyNode (c : ChildNode) : Bool := c.isRigidbody

/-- The `PlayerNode` state read and written by `PlayerNode::Update`:
inherited rigidbody velocity/acceleration plus the movement-tuning and
derived jump fields. -/
structure PlayerState where
  velocity : Vec2
  acceleration : Vec2
  playerSpeed : ℚ
  fallGravityFactor : ℚ
  buttonPressJumpGravityFactor : ℚ
  startJumpVelocity : ℚ
  gravityAcceleration : ℚ
deriving DecidableEq, Repr

/-- `PlayerNode::Update` (PlayerNode.cpp lines 43-79) up to — and not
including — the final delegation to `RigidbodyNode::Update`: it returns the
velocity (after the jump branch ran `SetVelocity`) and the acceleration
passed to `SetAcceleration`. When the rigidbody-child lookup yields null,
line 57 calls `GetOverlappedNodesThisFrame()` through the null pointer;
that fault is modelled as `none`. -/
def PlayerNode_Update (s : PlayerState) (input : Vec2) (children : List ChildNode) :
    Option (Vec2 × Vec2) :=
  let accX : ℚ :=
    if |s.velocity.x| < s.playerSpeed ∧ 0 < |input.x| then input.x * 100
    else s.velocity.x * (-10)
  match GetChild children isRigidbodyNode with
  | none => none
  | some jumpTrigger =>
    let isGrounded : Bool := !jumpTrigger.overlappedNodesThisFrame.isEmpty
    let velocity : Vec2 :=
      if 0 < input.y ∧ isGrounded then ⟨s.velocity.x, s.startJumpVelocity⟩
      else s.velocity
    let accY0 : ℚ := s.gravityAcceleration
    let accY1 : ℚ :=
      if ¬isGrounded ∧ velocity.y < 0 then accY0 * s.fallGravityFactor else accY0
    let accY2 : ℚ :=
      if 0 < input.y then accY1 * s.buttonPressJumpGravityFactor else accY1
    some (velocity, ⟨accX, accY2⟩)

/-- C2: in every `PlayerNode::Update` call (that reaches integration), the
vertical acceleration passed on to integration equals `gravityAcceleration`,
multiplied by `fallGravityFactor` exactly when the player is airborne and
falling (entry `velocity.y < 0` and the trigger child overlaps nothing), and
additionally multiplied by `buttonPressJumpGravityFactor` exactly when the
vertical input is positive. -/
theorem update_gravity_scaling (s : PlayerState) (input : Vec2)
    (children : List ChildNode) (jt : ChildNode)
    (h : GetChild children isRigidbodyNode = some jt) :
    ∃ v a, PlayerNode_Update s input children = some (v, a) ∧
      a.y = s.gravityAcceleration
        * (if jt.overlappedNodesThisFrame.isEmpty ∧ s.velocity.y < 0
           then s.fallGravityFactor else 1)
        * (if 0 < input.y then s.buttonPressJumpGravityFactor else 1) := by
  simp only [PlayerNode_Update, h]
  refine ⟨_, _, rfl, ?_⟩
  rcases he : jt.overlappedNodesThisFrame.isEmpty with _ | _ <;>
    simp only [he, Bool.not_false, Bool.not_true] <;>
  by_cases hy : 0 < input.y <;>
  by_cases hv : s.velocity.y < 0 <;>
    simp [he, hy, hv]

/-- C3: in every `PlayerNode::Update` call (that reaches integration), the
player is treated as grounded iff the overlap set of its first rigidbody
child is non-empty: iff the vertical input is positive and that set is
non-empty, the vertical velocity becomes `startJumpVelocity`, and the
horizontal velocity is left unchanged in all cases. -/
theorem update_grounded_jump (s : PlayerState) (input : Vec2)
    (children : List ChildNode) (jt : ChildNode)
    (h : GetChild children isRigidbodyNode = some jt) :
    ∃ v a, PlayerNode_Update s input children = some (v, a) ∧
      v.x = s.velocity.x ∧
      v.y = if 0 < input.y ∧ jt.overlappedNodesThisFrame ≠ []
            then s.startJumpVelocity else s.velocity.y := by
  simp only [PlayerNode_Update, h]
  refine ⟨_, _, rfl, ?_, ?_⟩ <;>
  rcases he : jt.overlappedNodesThisFrame with _ | _ <;>
  by_cases hy : 0 < input.y <;>
    simp [he, hy]

/-- C4: in every `PlayerNode::Update` call (that reaches integration), the
horizontal acceleration is `input.x * 100` when the horizontal speed
magnitude is below `playerSpeed` and the horizontal input is non-zero, and
`velocity.x * -10` otherwise. -/
theorem update_horizontal_acceleration (s : PlayerState) (input : Vec2)
    (children : List ChildNode) (jt : ChildNode)
    (h : GetChild children isRigidbodyNode = some jt) :
    ∃ v a, PlayerNode_Update s input children = some (v, a) ∧
      a.x = if |s.velocity.x| < s.playerSpeed ∧ input.x ≠ 0
            then input.x * 100 else s.velocity.x * (-10) := by
  simp only [PlayerNode_Update, h, abs_pos]
  exact ⟨_, _, rfl, rfl⟩

/-- A concrete player state used to instantiate the Update theorems:
velocity (0,-1), acceleration (0,0), the constructor's tuning values and the
jump constants `SetJumpParameters` derives from them. -/
def sampleState : PlayerState :=
  ⟨⟨0, -1⟩, ⟨0, 0⟩, 7, 4/5, 1/2, 1120/9, -627200/81⟩

/-- Witness for C2 at a concrete input: one rigidbody child overlapping
nothing, no input, entry velocity falling. -/
theorem update_gravity_scaling_witness :
    GetChild [⟨true, []⟩] isRigidbodyNode = some ⟨true, []⟩ ∧
    ∃ v a, PlayerNode_Update sampleState ⟨0, 0⟩ [⟨true, []⟩] = some (v, a) ∧
      a.y = sampleState.gravityAcceleration
        * (if (ChildNode.mk true []).overlappedNodesThisFrame.isEmpty ∧
              sampleState.velocity.y < 0
           then sampleState.fallGravityFactor else 1)
        * (if 0 < (Vec2.mk 0 0).y then sampleState.buttonPressJumpGravityFactor
           else 1) :=
  ⟨rfl, update_gravity_scaling sampleState ⟨0, 0⟩ [⟨true, []⟩] ⟨true, []⟩ rfl⟩

/-- Witness for C3 at a concrete input: one rigidbody child overlapping
node 5, vertical input held. -/
theorem update_grounded_jump_witness :
    GetChild [⟨true, [5]⟩] isRigidbodyNode = some ⟨true, [5]⟩ ∧
    ∃ v a, PlayerNode_Update sampleState ⟨0, 1⟩ [⟨true, [5]⟩] = some (v, a) ∧
      v.x = sampleState.velocity.x ∧
      v.y = if 0 < (Vec2.mk 0 1).y ∧
               (ChildNode.mk true [5]).overlappedNodesThisFrame ≠ []
            then sampleState.startJumpVelocity else sampleState.velocity.y :=
  ⟨rfl, update_grounded_jump sampleState ⟨0, 1⟩ [⟨true, [5]⟩] ⟨true, [5]⟩ rfl⟩

/-- Witness for C4 at a concrete input: slow player, rightward input. -/
theorem update_horizontal_acceleration_witness :
    GetChild [⟨true, []⟩] isRigidbodyNode = some ⟨true, []⟩ ∧
    ∃ v a, PlayerNode_Update sampleState ⟨1, 0⟩ [⟨true, []⟩] = some (v, a) ∧
      a.x = if |sampleState.velocity.x| < sampleState.playerSpeed ∧
               (Vec2.mk 1 0).x ≠ 0
            then (Vec2.mk 1 0).x * 100 else sampleState.velocity.x * (-10) :=
  ⟨rfl, update_horizontal_acceleration sampleState ⟨1, 0⟩ [⟨true, []⟩] ⟨true, []⟩ rfl⟩

/-- C5 counterexample: for a player whose only child is not a rigidbody, the
child lookup indeed returns null, but `PlayerNode::Update` does not complete:
line 57 calls `GetOverlappedNodesThisFrame()` through the null result, the
fault modelled as `none`. -/
theorem update_null_child_counterexample :
    GetChild [⟨false, []⟩] isRigidbodyNode = none ∧
    PlayerNode_Update sampleState ⟨0, 0⟩ [⟨false, []⟩] = none :=
  ⟨rfl, rfl⟩

/-- C5 amended: for a PlayerNode with no child satisfying the RigidbodyNode
predicate, the child lookup in Update returns a null result, and Update does
not handle the absence: it dereferences the null result and faults (does not
complete). -/
theorem update_null_child_faults (s : PlayerState) (input : Vec2)
    (children : List ChildNode)
    (h : ∀ c ∈ children, c.isRigidbody = false) :
    GetChild children isRigidbodyNode = none ∧
    PlayerNode_Update s input children = none := by
  have hg : GetChild children isRigidbodyNode = none := by
    simp only [GetChild, List.find?_eq_none, isRigidbodyNode]
    intro c hc
    simp [h c hc]
  exact ⟨hg, by simp [PlayerNode_Update, hg]⟩

/-- Witness for the amended C5 at a concrete input: a player with no
children at all. -/
theorem update_null_child_faults_witness :
    GetChild [] isRigidbodyNode = none ∧
    PlayerNode_Update sampleState ⟨1, 0⟩ [] = none :=
  update_null_child_faults sampleState ⟨1, 0⟩ [] (by simp)

/-- One tile created by the Map constructor: `nodesMap.at(ch)->Clone()` with
its local position set to `(characterNumber, lineNumber, 0)`. Modelled from
the spec for the part outside src/: `Node::Clone` deep-copies, so a clone is
represented by the identifier of the prototype it was cloned from. -/
structure Tile where
  proto : ℕ
  position : ℕ × ℕ × ℕ
deriving DecidableEq, Repr

/-- Observable outcome of running the `Map::Map` constructor body: the
children added (in order), the `size` member, and whether the constructor
ran to completion (`ok = false` models the `std::out_of_range` that
`std::map::at` throws on a character without a prototype). -/
structure MapBuild where
  tiles : List Tile
  sizeX : ℕ
  sizeY : ℕ
  ok : Bool
deriving DecidableEq, Repr

/-- The inner character loop of `Map::Map` (Map.cpp lines 13-19) over one
line, starting at a given `characterNumber`: clone the prototype of each
character and place it at `(characterNumber, lineNumber, 0)`; a missing
prototype aborts the loop with the tiles added so far. -/
def mapBuildLine (protos : Char → Option ℕ) (lineNumber : ℕ) :
    ℕ → List Char → List Tile × Bool
  | _, [] => ([], true)
  | characterNumber, ch :: rest =>
    match protos ch with
    | none => ([], false)
    | some p =>
      let r := mapBuildLine protos lineNumber (characterNumber + 1) rest
      (⟨p, (characterNumber, lineNumber, 0)⟩ :: r.1, r.2)

/-- The outer `getline` loop of `Map::Map` (Map.cpp lines 12-24): lines in
order; after each completed line `size.x = max(size.x, characterNumber)` and
`lineNumber` advances; at the end `size.y = lineNumber`. A failing line stops
the construction with the children added so far. -/
def mapBuildLines (protos : Char → Option ℕ) :
    ℕ → ℕ → List (List Char) → MapBuild
  | lineNumber, sizeX, [] => ⟨[], sizeX, lineNumber, true⟩
  | lineNumber, sizeX, line :: rest =>
    let lr := mapBuildLine protos lineNumber 0 line
    if lr.2 then
      let mb := mapBuildLines protos (lineNumber + 1) (max sizeX line.length) rest
      ⟨lr.1 ++ mb.tiles, mb.sizeX, mb.sizeY, mb.ok⟩
    else
      ⟨lr.1, sizeX, lineNumber, false⟩

/-- `Map::Map(path, nodesMap)` on a file whose contents are the given lines;
`none` models an unreadable file, for which `getline` yields no lines, so the
loop body never runs and `size` stays `(0, 0)`. -/
def mapConstructor (protos : Char → Option ℕ)
    (file : Option (List (List Char))) : MapBuild :=
  mapBuildLines protos 0 0 (file.getD [])

/-- `Map::GetSize` (Map.cpp lines 29-31): returns the `size` member. -/
def Map_GetSize (m : MapBuild) : ℕ × ℕ := (m.sizeX, m.sizeY)

/-- The tile the constructor makes for character `ch` at column
`characterNumber` of line `lineNumber` (prototype identifier, grid position). -/
def tileOf (protos : Char → Option ℕ) (lineNumber characterNumber : ℕ)
    (ch : Char) : Tile :=
  ⟨(protos ch).getD 0, (characterNumber, lineNumber, 0)⟩

/-- Reading-order tiles of one line: column `c₀ + i` for the `i`-th
character. -/
def lineTiles (protos : Char → Option ℕ) (lineNumber c₀ : ℕ)
    (line : List Char) : List Tile :=
  (line.enumFrom c₀).map fun q => tileOf protos lineNumber q.1 q.2

/-- Reading-order tiles of a grid: left to right within a line, lines top to
bottom, the first line having row index `r₀`. -/
def gridTiles (protos : Char → Option ℕ) (r₀ : ℕ)
    (lines : List (List Char)) : List Tile :=
  (lines.enumFrom r₀).flatMap fun q => lineTiles protos q.1 0 q.2

theorem mapBuildLine_all_some (protos : Char → Option ℕ) (r : ℕ)
    (line : List Char) (h : ∀ ch ∈ line, (protos ch).isSome) (c₀ : ℕ) :
    mapBuildLine protos r c₀ line = (lineTiles protos r c₀ line, true) := by
  induction line generalizing c₀ with
  | nil => simp [mapBuildLine, lineTiles, List.enumFrom]
  | cons ch rest ih =>
    obtain ⟨p, hp⟩ := Option.isSome_iff_exists.mp (h ch (by simp))
    have hrest : ∀ c ∈ rest, (protos c).isSome := fun c hc => h c (by simp [hc])
    simp [mapBuildLine, hp, lineTiles, List.enumFrom, tileOf,
      ih hrest (c₀ + 1)]

theorem mapBuildLine_first_missing (protos : Char → Option ℕ) (r : ℕ)
    (good : List Char) (bad : Char) (rest : List Char)
    (hg : ∀ ch ∈ good, (protos ch).isSome) (hb : protos bad = none) (c₀ : ℕ) :
    mapBuildLine protos r c₀ (good ++ bad :: rest)
      = (lineTiles protos r c₀ good, false) := by
  induction good generalizing c₀ with
  | nil => simp [mapBuildLine, hb, lineTiles, List.enumFrom]
  | cons ch gs ih =>
    obtain ⟨p, hp⟩ := Option.isSome_iff_exists.mp (hg ch (by simp))
    have hgs : ∀ c ∈ gs, (protos c).isSome := fun c hc => hg c (by simp [hc])
    simp [mapBuildLine, hp, lineTiles, List.enumFrom, tileOf, ih hgs (c₀ + 1)]

theorem mapBuildLines_all_some (protos : Char → Option ℕ)
    (lines : List (List Char))
    (h : ∀ l ∈ lines, ∀ ch ∈ l, (protos ch).isSome) (r sx : ℕ) :
    mapBuildLines protos r sx lines =
      ⟨gridTiles protos r lines,
       List.foldl (fun a m => max a m.length) sx lines,
       r + lines.length, true⟩ := by
  induction lines generalizing r sx with
  | nil => simp [mapBuildLines, gridTiles, List.enumFrom]
  | cons line rest ih =>
    have hrest : ∀ l ∈ rest, ∀ ch ∈ l, (protos ch).isSome :=
      fun l hl => h l (by simp [hl])
    rw [mapBuildLines]
    rw [mapBuildLine_all_some protos r line (h line (by simp)) 0]
    simp [ih hrest (r + 1) (max sx line.length), gridTiles, List.enumFrom]
    omega

theorem mapBuildLines_first_missing (protos : Char → Option ℕ)
    (goodLines : List (List Char)) (good : List Char) (bad : Char)
    (rest : List Char) (restLines : List (List Char))
    (hg : ∀ l ∈ goodLines, ∀ ch ∈ l, (protos ch).isSome)
    (hgc : ∀ ch ∈ good, (protos ch).isSome)
    (hb : protos bad = none) (r sx : ℕ) :
    mapBuildLines protos r sx (goodLines ++ (good ++ bad :: rest) :: restLines)
      = ⟨gridTiles protos r goodLines
           ++ lineTiles protos (r + goodLines.length) 0 good,
         List.foldl (fun a m => max a m.length) sx goodLines,
         r + goodLines.length, false⟩ := by
  induction goodLines generalizing r sx with
  | nil =>
    rw [List.nil_append, mapBuildLines]
    rw [mapBuildLine_first_missing protos r good bad rest hgc hb 0]
    simp [gridTiles, List.enumFrom]
  | cons line gls ih =>
    have hgls : ∀ l ∈ gls, ∀ ch ∈ l, (protos ch).isSome :=
      fun l hl => hg l (by simp [hl])
    rw [List.cons_append, mapBuildLines]
    rw [mapBuildLine_all_some protos r line (hg line (by simp)) 0]
    simp [ih hgls (r + 1) (max sx line.length), gridTiles, List.enumFrom]
    have hr : r + 1 + gls.length = r + (gls.length + 1) := by omega
    rw [hr]
    exact ⟨rfl, rfl⟩

/-- C6: for every grid file and prototype map covering every character of
the file, the Map constructor completes and its children are exactly one
clone per character — the clone of that character's prototype, placed at
`(characterNumber, lineNumber, 0)` — in reading order: left to right within
a line, lines top to bottom. -/
theorem mapConstructor_clones_grid (protos : Char → Option ℕ)
    (lines : List (List Char))
    (h : ∀ l ∈ lines, ∀ ch ∈ l, (protos ch).isSome) :
    (mapConstructor protos (some lines)).ok = true ∧
    (mapConstructor protos (some lines)).tiles = gridTiles protos 0 lines := by
  simp [mapConstructor, mapBuildLines_all_some protos lines h 0 0]

/-- C7: a grid file containing a character with no prototype makes the Map
constructor fault (the failed `std::map::at` lookup surfaces, no Map object
is produced), and the children added before the fault are exactly the tiles
of the characters strictly before the offending one in reading order — none
for the offending character or any later one. -/
theorem mapConstructor_missing_proto (protos : Char → Option ℕ)
    (goodLines : List (List Char)) (good : List Char) (bad : Char)
    (rest : List Char) (restLines : List (List Char))
    (hg : ∀ l ∈ goodLines, ∀ ch ∈ l, (protos ch).isSome)
    (hgc : ∀ ch ∈ good, (protos ch).isSome)
    (hb : protos bad = none) :
    (mapConstructor protos
        (some (goodLines ++ (good ++ bad :: rest) :: restLines))).ok = false ∧
    (mapConstructor protos
        (some (goodLines ++ (good ++ bad :: rest) :: restLines))).tiles
      = gridTiles protos 0 goodLines
          ++ lineTiles protos goodLines.length 0 good := by
  simp [mapConstructor,
    mapBuildLines_first_missing protos goodLines good bad rest restLines
      hg hgc hb 0 0]

/-- The prototype map `CreateNodeMap` builds (MainEngine.cpp lines 222-224):
a kinematic brick for a hash sign, a path sprite for a blank. -/
def sampleProtos : Char → Option ℕ :=
  fun ch => if ch = '#' then some 1 else if ch = ' ' then some 2 else none

/-- Witness for C6 at a concrete input: a 2x2 grid of bricks and paths,
every character covered by the prototype map. -/
theorem mapConstructor_clones_grid_witness :
    (mapConstructor sampleProtos (some [['#', ' '], [' ', '#']])).ok = true ∧
    (mapConstructor sampleProtos (some [['#', ' '], [' ', '#']])).tiles
      = gridTiles sampleProtos 0 [['#', ' '], [' ', '#']] :=
  mapConstructor_clones_grid sampleProtos [['#', ' '], [' ', '#']] (by decide)

/-- Witness for C7 at a concrete input: the second line holds a character
with no prototype at column 1; only the first line and column 0 of the
second line get tiles, and the construction faults. -/
theorem mapConstructor_missing_proto_witness :
    (mapConstructor sampleProtos
        (some ([['#']] ++ ([' '] ++ 'x' :: ['#']) :: [['#']]))).ok = false ∧
    (mapConstructor sampleProtos
        (some ([['#']] ++ ([' '] ++ 'x' :: ['#']) :: [['#']]))).tiles
      = gridTiles sampleProtos 0 [['#']]
          ++ lineTiles sampleProtos (List.length [['#']]) 0 [' '] :=
  mapConstructor_missing_proto sampleProtos [['#']] [' '] 'x' ['#'] [['#']]
    (by decide) (by decide) (by decide)

theorem foldlMax_le (l : List (List Char)) :
    ∀ sx : ℕ, sx ≤ List.foldl (fun a m => max a m.length) sx l := by
  induction l with
  | nil => intro sx; simp
  | cons line rest ih =>
    intro sx
    calc sx ≤ max sx line.length := Nat.le_max_left _ _
    _ ≤ _ := by simpa using ih (max sx line.length)

theorem foldlMax_mem_le (l : List (List Char)) :
    ∀ sx : ℕ, ∀ x ∈ l, x.length ≤ List.foldl (fun a m => max a m.length) sx l := by
  induction l with
  | nil => simp
  | cons line rest ih =>
    intro sx x hx
    rcases List.mem_cons.mp hx with hx | hx
    · subst hx
      calc x.length ≤ max sx x.length := Nat.le_max_right _ _
      _ ≤ _ := by simpa using foldlMax_le rest (max sx x.length)
    · simpa using ih (max sx line.length) x hx

theorem foldlMax_cases (l : List (List Char)) :
    ∀ sx : ℕ, List.foldl (fun a m => max a m.length) sx l = sx ∨
      ∃ x ∈ l, List.foldl (fun a m => max a m.length) sx l = x.length := by
  induction l with
  | nil => intro sx; left; rfl
  | cons line rest ih =>
    intro sx
    rcases ih (max sx line.length) with h | ⟨x, hx, h⟩
    · rcases max_choice sx line.length with hm | hm
      · left; simpa [hm] using h
      · right; exact ⟨line, by simp, by simpa [hm] using h⟩
    · right; exact ⟨x, by simp [hx], by simpa using h⟩

theorem mapBuildLines_ok_size (protos : Char → Option ℕ)
    (lines : List (List Char)) :
    ∀ r sx : ℕ, (mapBuildLines protos r sx lines).ok = true →
      (mapBuildLines protos r sx lines).sizeX
          = List.foldl (fun a m => max a m.length) sx lines ∧
      (mapBuildLines protos r sx lines).sizeY = r + lines.length := by
  induction lines with
  | nil => intro r sx _; simp [mapBuildLines]
  | cons line rest ih =>
    intro r sx hok
    rcases hl : (mapBuildLine protos r 0 line).2 with _ | _
    · rw [mapBuildLines] at hok
      simp [hl] at hok
    · rw [mapBuildLines] at hok ⊢
      simp only [hl, if_true] at hok ⊢
      have := ih (r + 1) (max sx line.length) (by simpa using hok)
      simp only [List.foldl_cons, List.length_cons]
      constructor
      · simpa using this.1
      · have h2 := this.2
        simp only at h2
        simp [h2]
        omega

/-- C10: after a completed Map construction from a file with L lines,
`GetSize` returns `(M, L)` where `M` is the maximum line length over the
file's lines (an upper bound that is attained whenever the file has a line);
for an empty or unreadable file it returns `(0, 0)`. -/
theorem map_GetSize_spec (protos : Char → Option ℕ)
    (file : Option (List (List Char)))
    (h : (mapConstructor protos file).ok = true) :
    (Map_GetSize (mapConstructor protos file)).2 = (file.getD []).length ∧
    (∀ l ∈ file.getD [],
        l.length ≤ (Map_GetSize (mapConstructor protos file)).1) ∧
    (file.getD [] ≠ [] →
        ∃ l ∈ file.getD [],
          l.length = (Map_GetSize (mapConstructor protos file)).1) ∧
    (file.getD [] = [] → Map_GetSize (mapConstructor protos file) = (0, 0)) := by
  obtain ⟨hx, hy⟩ := mapBuildLines_ok_size protos (file.getD []) 0 0 h
  refine ⟨?_, ?_, ?_, ?_⟩
  · simp [Map_GetSize, mapConstructor] at hy ⊢
    simpa using hy
  · intro l hl
    simp only [Map_GetSize, mapConstructor] at hx ⊢
    rw [hx]
    exact foldlMax_mem_le _ 0 l hl
  · intro hne
    simp only [Map_GetSize, mapConstructor] at hx ⊢
    rcases foldlMax_cases (file.getD []) 0 with hc | ⟨x, hxm, hc⟩
    · rcases List.exists_mem_of_ne_nil _ hne with ⟨l, hl⟩
      refine ⟨l, hl, ?_⟩
      have hle := foldlMax_mem_le (file.getD []) 0 l hl
      rw [hx, hc]
      rw [hc] at hle
      omega
    · exact ⟨x, hxm, by rw [hx, hc]⟩
  · intro he
    simp [Map_GetSize, mapConstructor, he, mapBuildLines]

/-- Witness for C10 at a concrete input: a readable two-line file with line
lengths 1 and 2. -/
theorem map_GetSize_spec_witness :
    (Map_GetSize (mapConstructor sampleProtos (some [[' '], [' ', '#']]))).2
        = (Option.getD (some [[' '], [' ', '#']]) []).length ∧
    (∀ l ∈ Option.getD (some [[' '], [' ', '#']]) [],
        l.length ≤ (Map_GetSize (mapConstructor sampleProtos
          (some [[' '], [' ', '#']]))).1) ∧
    (Option.getD (some [[' '], [' ', '#']]) [] ≠ [] →
        ∃ l ∈ Option.getD (some [[' '], [' ', '#']]) [],
          l.length = (Map_GetSize (mapConstructor sampleProtos
            (some [[' '], [' ', '#']]))).1) ∧
    (Option.getD (some [[' '], [' ', '#']]) [] = [] →
        Map_GetSize (mapConstructor sampleProtos (some [[' '], [' ', '#']]))
          = (0, 0)) :=
  map_GetSize_spec sampleProtos (some [[' '], [' ', '#']]) (by decide)

/-- The finished, immutable shape `CollisionShapeFactory::Build` returns: a
pure value with no mutating operation, so a built shape is never changed. -/
inductive CollisionShape where
  | rectangle (height width : ℚ)
  | circle (radius : ℚ)
deriving DecidableEq, Repr

/-- The factory state declared in CollisionShapeFactory.h: the `product`
being built. `instanceId` stands for the object identity of the factory, so
that "returns the same factory instance" is expressible in a pure model. -/
structure CollisionShapeFactory where
  instanceId : ℕ
  product : Option CollisionShape
deriving DecidableEq, Repr

/-- Modelled from the spec: CollisionShapeFactory.cpp is not under src/ (the
header declares `CreateRectangleCollisionShape(height, width)` and `Build`,
and PlayerNode.cpp/MainEngine.cpp call the circle variant). Per the spec the
method stores the rectangle product and returns the same factory instance
for chaining. -/
def CreateRectangleCollisionShape (f : CollisionShapeFactory)
    (height width : ℚ) : CollisionShapeFactory :=
  { f with product := some (.rectangle height width) }

/-- Modelled from the spec: `CreateCircleCollisionShape(radius)`, declared
only by its callers within src/, stores the circle product and returns the
same factory instance for chaining. -/
def CreateCircleCollisionShape (f : CollisionShapeFactory)
    (radius : ℚ) : CollisionShapeFactory :=
  { f with product := some (.circle radius) }

/-- Modelled from the spec: `Build()` terminates the chain and returns the
finished shape. -/
def Build (f : CollisionShapeFactory) : Option CollisionShape := f.product

/-- C8: the factory exposes both `CreateRectangleCollisionShape(height,
width)` and `CreateCircleCollisionShape(radius)`; each returns the factory
instance it was invoked on (chaining), and `Build` on the result returns the
finished shape — which, being a pure value, is never mutated after Build. -/
theorem collisionShapeFactory_chaining (f : CollisionShapeFactory)
    (height width radius : ℚ) :
    (CreateRectangleCollisionShape f height width).instanceId = f.instanceId ∧
    (CreateCircleCollisionShape f radius).instanceId = f.instanceId ∧
    Build (CreateRectangleCollisionShape f height width)
        = some (.rectangle height width) ∧
    Build (CreateCircleCollisionShape f radius) = some (.circle radius) :=
  ⟨rfl, rfl, rfl, rfl⟩

/-- The `RigidbodyNode` state integrated each frame: position (of the local
transform), velocity, acceleration, and the kinematic/trigger flags. -/
structure RigidbodyState where
  position : Vec2
  velocity : Vec2
  acceleration : Vec2
  isKinematic : Bool
  isTrigger : Bool
deriving DecidableEq, Repr

/-- Modelled from the spec: RigidbodyNode.cpp is not under src/. Spec §4.4
step 1: "If not kinematic: integrate `velocity += acceleration *
deltaSeconds`; `position += velocity * deltaSeconds`" (semi-implicit Euler);
a kinematic body skips integration entirely. -/
def RigidbodyNode_Update (s : RigidbodyState) (deltaSeconds : ℚ) :
    RigidbodyState :=
  if s.isKinematic then s
  else
    let v : Vec2 := ⟨s.velocity.x + s.acceleration.x * deltaSeconds,
                     s.velocity.y + s.acceleration.y * deltaSeconds⟩
    { s with
      velocity := v,
      position := ⟨s.position.x + v.x * deltaSeconds,
                   s.position.y + v.y * deltaSeconds⟩ }

/-- C9: a RigidbodyNode whose `isKinematic` flag is true keeps its position
across one Update step, for every velocity, acceleration and time step. -/
theorem kinematic_position_unchanged (s : RigidbodyState) (dt : ℚ)
    (h : s.isKinematic = true) :
    (RigidbodyNode_Update s dt).position = s.position := by
  simp [RigidbodyNode_Update, h]

/-- Witness for C9 at a concrete input: a kinematic brick with non-zero
velocity and acceleration. -/
theorem kinematic_position_unchanged_witness :
    (RigidbodyState.mk ⟨1, 2⟩ ⟨3, 4⟩ ⟨5, 6⟩ true false).isKinematic = true ∧
    (RigidbodyNode_Update ⟨⟨1, 2⟩, ⟨3, 4⟩, ⟨5, 6⟩, true, false⟩ (1/2)).position
        = (RigidbodyState.mk ⟨1, 2⟩ ⟨3, 4⟩ ⟨5, 6⟩ true false).position :=
  ⟨rfl, kinematic_position_unchanged ⟨⟨1, 2⟩, ⟨3, 4⟩, ⟨5, 6⟩, true, false⟩
    (1/2) rfl⟩

end Y2D
